import Mathlib

/-!
Verification development for the goldie golden-file testing library.

The Go package is shallowly embedded below.  Byte slices become values of
type `GoBytes` (an `Option (List Nat)` so that the nil slice and the empty
slice stay distinguishable, exactly as in Go; the two compare equal under
`bytes.Equal`, which only looks at the contents).  The file system becomes an
association list from paths, keyed by their slash-separated component lists,
to entries; `os.Stat`, `os.MkdirAll`, `os.WriteFile`, `os.ReadFile`,
`os.RemoveAll` and `os.Chtimes` become total functions over this state,
mirroring the POSIX behaviour the Go standard library exposes.  In
particular, accessing a path that has a strict ancestor which is a regular
file fails with ENOTDIR, an error for which `os.IsNotExist` reports false;
accessing a path with a missing ancestor fails with ENOENT, for which
`os.IsNotExist` reports true.  Permission bits are carried in the
configuration but have no behavioural effect in the model (no claim concerns
them).  `filepath.Clean` is elided: every path below is built from plain
slash-joined segments, on which Clean is the identity.
-/

/-- A Go byte slice: `none` is the nil slice, `some l` a slice with the given
byte contents.  `bytes.Equal` and `len` only look at the contents. -/
def GoBytes := Option (List Nat)

/-- The contents of a Go byte slice; nil has empty contents. -/
def goBytesData (d : GoBytes) : List Nat := d.getD []

/-- `len(d)` for a Go byte slice. -/
def goLen (d : GoBytes) : Nat := (goBytesData d).length

/-- UTF-8 encoding of a single character, as the Go runtime produces when a
string is converted to a byte slice. -/
def utf8Bytes (c : Char) : List Nat :=
  let n := c.toNat
  if n < 128 then [n]
  else if n < 2048 then [192 + n / 64, 128 + n % 64]
  else if n < 65536 then [224 + n / 4096, 128 + (n / 64) % 64, 128 + n % 64]
  else [240 + n / 262144, 128 + (n / 4096) % 64, 128 + (n / 64) % 64, 128 + n % 64]

/-- The byte contents of a Go string (`[]byte(s)`): UTF-8 encoding. -/
def strBytes (s : String) : List Nat := (s.data.map utf8Bytes).flatten

/-- Decoding used only to render diagnostic messages (`string(b)`); the
fixtures in this development are ASCII, where decoding is codepoint-wise. -/
def bytesToString (l : List Nat) : String := String.mk (l.map Char.ofNat)

/-- One scanning pass of `bytes.Replace` with a non-empty pattern: leftmost
non-overlapping matches are replaced.  The first argument is fuel, one unit
per consumed input byte, so the definition is structurally recursive and
kernel-reducible; callers pass the input length, which is always enough. -/
def replaceScan (pat rep : List Nat) : Nat → List Nat → List Nat
  | _, [] => []
  | 0, s => s
  | fuel + 1, b :: rest =>
    if pat.isPrefixOf (b :: rest) then
      rep ++ replaceScan pat rep fuel ((b :: rest).drop pat.length)
    else
      b :: replaceScan pat rep fuel rest

/-- `bytes.ReplaceAll(s, pat, rep)` (`bytes.Replace` with count -1).  With an
empty pattern Go inserts `rep` before every byte and at the end. -/
def bytesReplaceAll (s pat rep : List Nat) : List Nat :=
  match pat with
  | [] => rep ++ (s.map (fun b => b :: rep)).flatten
  | _ :: _ => replaceScan pat rep s.length s

/-- `strings.Split(s, sep)` for the one separator the package uses, a single
slash, written at the character-list level so that it is structurally
recursive and kernel-reducible. -/
def splitSlashChars : List Char → List (List Char)
  | [] => [[]]
  | c :: cs =>
    if c = '/' then [] :: splitSlashChars cs
    else
      match splitSlashChars cs with
      | p :: ps => (c :: p) :: ps
      | [] => [[c]]

/-- `strings.Split(s, "/")`. -/
def goSplit (s : String) : List String := (splitSlashChars s.data).map String.mk

/-- Joining path segments with slashes (the already-filtered core of
`filepath.Join`). -/
def joinSlash : List String → String
  | [] => ""
  | [s] => s
  | s :: rest => s ++ "/" ++ joinSlash rest

/-- `filepath.Join(elems...)`: empty elements are dropped, the rest joined by
slashes.  `filepath.Clean` is elided (identity on the plain segments used
throughout this development). -/
def filepathJoin (elems : List String) : String :=
  joinSlash (elems.filter (fun s => decide (s ≠ "")))

/-- `filepath.Dir(p)`: everything before the final slash; a single-component
path has directory `"."` (Clean elided as above). -/
def filepathDir (p : String) : String :=
  let parts := goSplit p
  if parts.length ≤ 1 then "." else joinSlash parts.dropLast

/-- The component list identifying a path in the modelled file system. -/
def pathKey (p : String) : List String := goSplit p

/-- The strict ancestors of a path, outermost first: the joins of the proper
non-empty component prefixes. -/
def properAncestorKeys (k : List String) : List (List String) :=
  (List.range (k.length - 1)).map (fun i => k.take (i + 1))

/-- A file-system entry: a regular file with byte contents, or a directory
with a modification time (goldie only ever reads mtimes of directories). -/
inductive FsEntry
  | file (content : List Nat)
  | dir (mtime : Nat)
deriving DecidableEq

/-- The modelled file system: a finite map from path keys to entries. -/
structure FileSystem where
  entries : List (List String × FsEntry)
deriving DecidableEq

/-- Association-list lookup. -/
def fsFindAux : List (List String × FsEntry) → List String → Option FsEntry
  | [], _ => none
  | (k1, e) :: rest, k => if k1 = k then some e else fsFindAux rest k

/-- Look a path key up in the file system. -/
def fsFind (fs : FileSystem) (k : List String) : Option FsEntry :=
  fsFindAux fs.entries k

/-- Remove all bindings of one key. -/
def removeKey : List (List String × FsEntry) → List String → List (List String × FsEntry)
  | [], _ => []
  | (k1, e) :: rest, k => if k1 = k then removeKey rest k else (k1, e) :: removeKey rest k

/-- Bind a path key to an entry, replacing any previous binding. -/
def fsSet (fs : FileSystem) (k : List String) (e : FsEntry) : FileSystem :=
  ⟨(k, e) :: removeKey fs.entries k⟩

/-- Outcome of walking the strict ancestors of a path during resolution. -/
inductive AncestorScan
  | allDirs
  | fileAt (a : List String)
  | missingAt (a : List String)
deriving DecidableEq

/-- POSIX path resolution over the ancestors, outermost first: the first
ancestor that is a regular file yields ENOTDIR, the first missing ancestor
yields ENOENT. -/
def scanAncestors (fs : FileSystem) : List (List String) → AncestorScan
  | [] => .allDirs
  | a :: rest =>
    match fsFind fs a with
    | some (.file _) => .fileAt a
    | some (.dir _) => scanAncestors fs rest
    | none => .missingAt a

/-- The errors the modelled OS calls produce.  `os.IsNotExist` is true
exactly for ENOENT. -/
inductive IoErr
  | enoent (p : String)
  | enotdir (p : String)
  | eisdir (p : String)
deriving DecidableEq

/-- `os.IsNotExist` on a modelled I/O error. -/
def ioErrIsNotExist : IoErr → Bool
  | .enoent _ => true
  | _ => false

/-- `err.Error()` for a modelled I/O error (message shape only; no theorem
depends on this text). -/
def ioErrMessage : IoErr → String
  | .enoent p => "open " ++ p ++ ": no such file or directory"
  | .enotdir p => "open " ++ p ++ ": not a directory"
  | .eisdir p => "read " ++ p ++ ": is a directory"

/-- Result of `os.Stat`. -/
inductive StatResult
  | ok (e : FsEntry)
  | errNotExist
  | errNotDir
deriving DecidableEq

/-- `os.Stat(p)` over the modelled file system. -/
def fsStat (fs : FileSystem) (p : String) : StatResult :=
  let k := pathKey p
  match scanAncestors fs (properAncestorKeys k) with
  | .fileAt _ => .errNotDir
  | .missingAt _ => .errNotExist
  | .allDirs =>
    match fsFind fs k with
    | some e => .ok e
    | none => .errNotExist

/-- `os.ReadFile` / `ioutil.ReadFile`. -/
def readFileGo (fs : FileSystem) (p : String) : Except IoErr (List Nat) :=
  let k := pathKey p
  match scanAncestors fs (properAncestorKeys k) with
  | .fileAt _ => .error (.enotdir p)
  | .missingAt _ => .error (.enoent p)
  | .allDirs =>
    match fsFind fs k with
    | some (.file c) => .ok c
    | some (.dir _) => .error (.eisdir p)
    | none => .error (.enoent p)

/-- `os.WriteFile` / `ioutil.WriteFile`: create or truncate the file; the
parent chain must exist and consist of directories. -/
def writeFileGo (fs : FileSystem) (p : String) (content : List Nat) :
    Except IoErr FileSystem :=
  let k := pathKey p
  match scanAncestors fs (properAncestorKeys k) with
  | .fileAt _ => .error (.enotdir p)
  | .missingAt _ => .error (.enoent p)
  | .allDirs =>
    match fsFind fs k with
    | some (.dir _) => .error (.eisdir p)
    | _ => .ok (fsSet fs k (.file content))

/-- `os.MkdirAll(p, perm)`: create the path and every missing ancestor as
directories (modelled with the current run timestamp as mtime); fails with
ENOTDIR if the path or an ancestor exists as a regular file.  Permission
bits are not modelled. -/
def mkdirAllGo (ts : Nat) (fs : FileSystem) (p : String) : Except IoErr FileSystem :=
  let k := pathKey p
  let ks := properAncestorKeys k ++ [k]
  if ks.any (fun a =>
      match fsFind fs a with
      | some (.file _) => true
      | _ => false) then
    .error (.enotdir p)
  else
    .ok (ks.foldl (fun acc a =>
      match fsFind acc a with
      | some _ => acc
      | none => fsSet acc a (.dir ts)) fs)

/-- `os.RemoveAll(p)`: drop the path and everything below it. -/
def removeAllGo (fs : FileSystem) (p : String) : FileSystem :=
  ⟨fs.entries.filter (fun q => decide (¬ (pathKey p).isPrefixOf q.1))⟩

/-- `os.Chtimes(p, ts, ts)`: stamp the modification time.  Only directory
mtimes are tracked; restamping a file keeps its contents. -/
def chtimesGo (fs : FileSystem) (p : String) (ts : Nat) : Except IoErr FileSystem :=
  let k := pathKey p
  match scanAncestors fs (properAncestorKeys k) with
  | .fileAt _ => .error (.enotdir p)
  | .missingAt _ => .error (.enoent p)
  | .allDirs =>
    match fsFind fs k with
    | some (.dir _) => .ok (fsSet fs k (.dir ts))
    | some (.file c) => .ok (fsSet fs k (.file c))
    | none => .error (.enoent p)

/-!
The error taxonomy.  `errFixtureNotFound`, `errFixtureMismatch` are declared
in errors.go; `errMissingKey` and `errFixtureDirectoryIsFile` are referenced
by the sources and the tests but their struct declarations are not among the
provided files, so those two constructors are modelled from the spec
(section 7: `MissingKey`, `DirectoryConflict`).  Each Go error struct is a
distinct type carrying a message, so the embedding is one inductive with one
constructor per kind; `ioError` stands for unwrapped generic errors
(`fmt.Errorf` wrappers and raw `*PathError` values). -/
inductive GoError
  | fixtureNotFound (message : String)
  | fixtureMismatch (message : String)
  | missingKey (message : String)
  | directoryConflict (location : String)
  | ioError (message : String)
deriving DecidableEq

/-- `newErrFixtureNotFound()`. -/
def newErrFixtureNotFound : GoError :=
  .fixtureNotFound "Golden fixture not found. Try running with -update flag."

/-- `newErrFixtureMismatch(message)`. -/
def newErrFixtureMismatch (message : String) : GoError := .fixtureMismatch message

/-- Modelled from the spec: `newErrMissingKey(message)`; the struct
declaration of `errMissingKey` is not among the provided sources. -/
def newErrMissingKey (message : String) : GoError := .missingKey message

/-- Modelled from the spec: `newErrFixtureDirectoryIsFile(loc)` for the
`DirectoryConflict` kind; the struct declaration is not among the provided
sources. -/
def newErrFixtureDirectoryIsFile (loc : String) : GoError := .directoryConflict loc

/-- The diff engine enumeration (interface.go; `Simple` is the v2 addition
described in spec section 4.4). -/
inductive DiffEngine
  | undefinedDiff
  | simple
  | classicDiff
  | coloredDiff
deriving DecidableEq

/-- The test handle: goldie only ever reads `t.Name()`. -/
structure TestingT where
  tname : String

/-- The tester configuration (struct `Goldie` in v2/goldie.go; the unused
`equalFn` field, whose type is declared outside the provided sources, is
omitted since no provided code reads it). -/
structure Goldie where
  fixtureDir : String
  fileNameSuffix : String
  filePerms : Nat
  dirPerms : Nat
  diffEngine : DiffEngine
  diffFn : Option (String → String → String)
  ignoreTemplateErrors : Bool
  useTestNameForDir : Bool
  useSubTestNameForDir : Bool

/-- Default configuration built by `New` with no options (v2/goldie.go). -/
def goldieDefaults : Goldie where
  fixtureDir := "testdata"
  fileNameSuffix := ".golden"
  filePerms := 0o644
  dirPerms := 0o755
  diffEngine := .classicDiff
  diffFn := none
  ignoreTemplateErrors := false
  useTestNameForDir := false
  useSubTestNameForDir := false

/-- `Diff(engine, actual, expected)`.  The `Simple` rendering is literal; the
classic and colored renderings delegate to third-party diff libraries in Go
and are abstracted to fixed stand-in texts here — no theorem below depends on
the rendered diff text. -/
def goldieDiff (engine : DiffEngine) (actual expected : String) : String :=
  match engine with
  | .simple => "Expected: " ++ expected ++ "\nGot: " ++ actual
  | .classicDiff => "--- Expected\n+++ Actual\n-" ++ expected ++ "\n+" ++ actual
  | .coloredDiff => "colored diff of " ++ expected ++ " and " ++ actual
  | .undefinedDiff => "Expected: " ++ expected ++ "\nGot: " ++ actual

/-- `(g *Goldie) GoldenFileName(t, name)` (v2/goldie.go, which appends all
sub-test segments after the first separator). -/
def Goldie.goldenFileName (g : Goldie) (t : TestingT) (name : String) : String :=
  let dir0 := g.fixtureDir
  let n := goSplit t.tname
  let dir1 := if g.useTestNameForDir then filepathJoin [dir0, n.headD ""] else dir0
  let dir2 :=
    if g.useSubTestNameForDir then
      if 1 < n.length then filepathJoin (dir1 :: n.drop 1) else dir1
    else dir1
  filepathJoin [dir2, name ++ g.fileNameSuffix]

/-- `(g *Goldie) ensureDir(loc)` (v2/goldie.go): create the fixture folder if
missing; with the clean flag set, wipe and recreate a directory whose mtime
predates the current run; a regular file in the way of the folder itself is a
`DirectoryConflict`; any other stat error is returned unwrapped. -/
def Goldie.ensureDir (g : Goldie) (clean : Bool) (ts : Nat) (fs : FileSystem)
    (loc : String) : Except GoError FileSystem :=
  match fsStat fs loc with
  | .errNotExist => (mkdirAllGo ts fs loc).mapError (fun e => .ioError (ioErrMessage e))
  | .ok (.dir m) =>
    if clean = true ∧ m < ts then
      (mkdirAllGo ts (removeAllGo fs loc) loc).mapError (fun e => .ioError (ioErrMessage e))
    else .ok fs
  | .ok (.file _) => .error (newErrFixtureDirectoryIsFile loc)
  | .errNotDir => .error (.ioError ("stat " ++ loc ++ ": not a directory"))

/-- `(g *Goldie) Update(t, name, actualData)` (v2/goldie.go): ensure the
fixture directory, write the data, stamp the directory mtime with the run
timestamp. -/
def Goldie.update (g : Goldie) (clean : Bool) (ts : Nat) (t : TestingT)
    (name : String) (actualData : GoBytes) (fs : FileSystem) :
    Except GoError FileSystem :=
  let goldenFile := g.goldenFileName t name
  let goldenFileDir := filepathDir goldenFile
  match g.ensureDir clean ts fs goldenFileDir with
  | .error e => .error e
  | .ok fs1 =>
    match writeFileGo fs1 goldenFile (goBytesData actualData) with
    | .error e => .error (.ioError (ioErrMessage e))
    | .ok fs2 =>
      match chtimesGo fs2 goldenFileDir ts with
      | .error e => .error (.ioError (ioErrMessage e))
      | .ok fs3 => .ok fs3

/-- `(g *goldie) compare(t, name, actualData)` (the version of part_003 lines
241-277): read the fixture, translate a missing file into
`errFixtureNotFound`, wrap any other read error generically, and on content
difference build the diff message and return `errFixtureMismatch`. -/
def Goldie.compare (g : Goldie) (t : TestingT) (fs : FileSystem) (name : String)
    (actualData : GoBytes) : Except GoError Unit :=
  match readFileGo fs (g.goldenFileName t name) with
  | .error e =>
    if ioErrIsNotExist e then .error newErrFixtureNotFound
    else .error (.ioError ("Expected " ++ ioErrMessage e ++ " to be nil"))
  | .ok expectedData =>
    if goBytesData actualData = expectedData then .ok ()
    else
      let msg := "Result did not match the golden fixture.\n"
      let actual := bytesToString (goBytesData actualData)
      let expected := bytesToString expectedData
      if g.diffFn.isSome ∨ g.diffEngine ≠ .undefinedDiff then
        let d :=
          match g.diffFn with
          | some fn => fn actual expected
          | none => goldieDiff g.diffEngine actual expected
        .error (newErrFixtureMismatch (msg ++ "Diff is below:\n" ++ d))
      else
        .error (newErrFixtureMismatch
          (msg ++ "Expected: " ++ expected ++ "\nGot: " ++ actual))

/-- `normalizeLF(d)`: CRLF and lone CR become LF; empty and nil inputs are
returned as they are. -/
def normalizeLF (d : GoBytes) : GoBytes :=
  if goLen d = 0 then d
  else some (bytesReplaceAll (bytesReplaceAll (goBytesData d) [13, 10] [10]) [13] [10])

/-!
Functional options.  In Go an `Option` is `func(OptionProcessor) error`; the
nine built-in constructors wrap the nine setter methods, all of which assign
a field and return nil.  The embedding enumerates the built-in options. -/
inductive BuiltinOption
  | withFixtureDir (dir : String)
  | withNameSuffix (suffix : String)
  | withFilePerms (mode : Nat)
  | withDirPerms (mode : Nat)
  | withDiffEngine (engine : DiffEngine)
  | withDiffFn (fn : String → String → String)
  | withIgnoreTemplateErrors (ignoreErrors : Bool)
  | withTestNameForDir (use : Bool)
  | withSubTestNameForDir (use : Bool)

/-- Applying one built-in option: each setter stores its argument and returns
nil (part_003 setter methods). -/
def applyBuiltinOption (o : BuiltinOption) (g : Goldie) : Except String Goldie :=
  match o with
  | .withFixtureDir dir => .ok { g with fixtureDir := dir }
  | .withNameSuffix suffix => .ok { g with fileNameSuffix := suffix }
  | .withFilePerms mode => .ok { g with filePerms := mode }
  | .withDirPerms mode => .ok { g with dirPerms := mode }
  | .withDiffEngine engine => .ok { g with diffEngine := engine }
  | .withDiffFn fn => .ok { g with diffFn := some fn }
  | .withIgnoreTemplateErrors b => .ok { g with ignoreTemplateErrors := b }
  | .withTestNameForDir b => .ok { g with useTestNameForDir := b }
  | .withSubTestNameForDir b => .ok { g with useSubTestNameForDir := b }

/-- The option loop of `New`: apply options in order, stopping at the first
error (which `New` reports through `t.Error` and `t.FailNow`). -/
def applyOptions : List BuiltinOption → Goldie → Except String Goldie
  | [], g => .ok g
  | o :: rest, g =>
    match applyBuiltinOption o g with
    | .error e => .error ("could not apply option: " ++ e)
    | .ok g1 => applyOptions rest g1

/-- `New(t, options...)` over the built-in options: defaults, then the option
loop; an error value models the `t.FailNow()` abort path. -/
def newGoldie (options : List BuiltinOption) : Except String Goldie :=
  applyOptions options goldieDefaults

/-!
The metadata walk of `UpdateWithTemplate` (v2/goldie.go `meta`).  Go walks an
arbitrary value with reflection; the embedding closes the walked shapes into
a mutual inductive — scalar string leaves (whose `%v` rendering is the string
itself), structs and maps with string keys, and sequences.  The resulting Go
map becomes an association list with assignment-replaces semantics; map
iteration order in Go is unspecified, and the claims proved below do not
depend on the order in which the walk meets entries (the key set determines
the sorted replacement order, and the walked values are pairwise distinct
wherever a claim evaluates the walk). -/
mutual
inductive GoValue
  | str (s : String)
  | strct (fields : GoFields)
  | map (entries : GoFields)
  | seq (elems : GoValues)
inductive GoFields
  | nil
  | cons (key : String) (value : GoValue) (rest : GoFields)
inductive GoValues
  | nil
  | cons (value : GoValue) (rest : GoValues)
end

/-- Go map assignment `m[k] = v` on an association list. -/
def mapSet (m : List (String × String)) (k v : String) : List (String × String) :=
  if m.any (fun e => decide (e.1 = k)) then
    m.map (fun e => if e.1 = k then (k, v) else e)
  else m ++ [(k, v)]

/-- Go map read `m[k]` on an association list. -/
def mapGet (m : List (String × String)) (k : String) : Option String :=
  (m.find? (fun e => decide (e.1 = k))).map (fun e => e.2)

/-- `joinPath(path, key)` (v2/goldie.go). -/
def joinPath (path key : String) : String :=
  if path = "." then path ++ key else path ++ "." ++ key

/-- The path notation for sequence elements in `meta`:
`fmt.Sprintf("index (%s) %d", path, i)`. -/
def seqPath (path : String) (i : Nat) : String :=
  "index (" ++ path ++ ") " ++ toString i

mutual
/-- `recurseValuePath` of `meta` (v2/goldie.go): record each scalar leaf
under its rendered value, keyed to the dotted access path reaching it. -/
def recurseValuePath : GoValue → String → List (String × String) → List (String × String)
  | .str s, path, m => mapSet m s path
  | .strct fields, path, m => recurseFields fields path m
  | .map entries, path, m => recurseFields entries path m
  | .seq elems, path, m => recurseSeq elems path 0 m
def recurseFields : GoFields → String → List (String × String) → List (String × String)
  | .nil, _, m => m
  | .cons k v rest, path, m => recurseFields rest path (recurseValuePath v (joinPath path k) m)
def recurseSeq : GoValues → String → Nat → List (String × String) → List (String × String)
  | .nil, _, _, m => m
  | .cons v rest, path, i, m => recurseSeq rest path (i + 1) (recurseValuePath v (seqPath path i) m)
end

/-- `meta(a)`: walk from the root with path `"."` and an empty map. -/
def metaGo (a : GoValue) : List (String × String) := recurseValuePath a "." []

/-- Byte-wise `<` on strings, as Go compares strings (UTF-8 byte order,
which coincides with codepoint order). -/
def ltBytes : List Nat → List Nat → Bool
  | [], [] => false
  | [], _ :: _ => true
  | _ :: _, [] => false
  | a :: as, b :: bs => if a < b then true else if b < a then false else ltBytes as bs

/-- Go string comparison `s < t`. -/
def goStrLt (s t : String) : Bool := ltBytes (strBytes s) (strBytes t)

/-- Insert into a descending-sorted list (head largest). -/
def insertDesc (x : String) : List String → List String
  | [] => [x]
  | y :: ys => if goStrLt x y then y :: insertDesc x ys else x :: y :: ys

/-- `sort.Sort(sort.Reverse(sort.StringSlice(keys)))`: the keys in descending
byte-lexicographic order.  The Go sort is unstable, but the walked key sets
have no duplicates, so any correct sort produces this list. -/
def sortDesc (l : List String) : List String := l.foldr insertDesc []

/-- `UpdateWithTemplate` (v2/goldie.go): build the value-to-path map, take
its keys in descending order, replace every occurrence of each key in the
actual data by a placeholder naming its path, then `Update`. -/
def Goldie.updateWithTemplate (g : Goldie) (clean : Bool) (ts : Nat) (t : TestingT)
    (name : String) (data : GoValue) (actualData : GoBytes) (fs : FileSystem) :
    Except GoError FileSystem :=
  let m := metaGo data
  let keys := sortDesc (m.map Prod.fst)
  let replaced := keys.foldl
    (fun ad key =>
      let ref := "\x7b\x7b" ++ (mapGet m key).getD "" ++ "\x7d\x7d"
      some (bytesReplaceAll (goBytesData ad) (strBytes key) (strBytes ref)))
    actualData
  g.update clean ts t name replaced fs

/-!
Template expansion (`compareTemplate`).  The Go code delegates to the
standard text/template package with the fixture bytes as template source and
`Option("missingkey=error")` or `"missingkey=default"` according to the
ignore-template-errors toggle.  The embedding models the fragment of
text/template the fixtures use — literal text and dotted field references —
against map-shaped data with string values: with the error policy a
reference to an absent key aborts execution, with the default policy it
renders the standard text "<no value>". -/

/-- The opening brace character (written numerically throughout). -/
def braceL : Char := Char.ofNat 123

/-- The closing brace character. -/
def braceR : Char := Char.ofNat 125

/-- A parsed template piece: a literal character or a field reference. -/
inductive TmplChunk
  | lit (c : Char)
  | ref (field : String)
deriving DecidableEq

/-- Drop leading spaces. -/
def dropSpaces : List Char → List Char
  | [] => []
  | c :: rest => if c = ' ' then dropSpaces rest else c :: rest

/-- Take a maximal run of alphanumeric characters. -/
def takeIdent : List Char → List Char × List Char
  | [] => ([], [])
  | c :: rest =>
    if c.isAlphanum then
      let (i, r) := takeIdent rest
      (c :: i, r)
    else ([], c :: rest)

/-- Parse template text into chunks.  Double opening braces start an action,
which must be a dotted field reference, optionally space-padded, closed by
double closing braces; any other action form is a parse error (the modelled
fragment of the text/template grammar).  Everything else is literal text.
Fuel is one unit per consumed character; callers pass the input length. -/
def parseTmpl : Nat → List Char → Except String (List TmplChunk)
  | _, [] => .ok []
  | 0, _ => .error "template parse fuel exhausted"
  | fuel + 1, c :: rest =>
    if c = braceL then
      match rest with
      | c2 :: rest2 =>
        if c2 = braceL then
          match dropSpaces rest2 with
          | d :: rest3 =>
            if d = '.' then
              let (ident, rest4) := takeIdent rest3
              if ident = [] then .error "expected field name in template action"
              else
                match dropSpaces rest4 with
                | e1 :: e2 :: rest5 =>
                  if e1 = braceR then
                    if e2 = braceR then
                      (parseTmpl fuel rest5).map (fun ks => .ref (String.mk ident) :: ks)
                    else .error "expected closing braces"
                  else .error "expected closing braces"
                | _ => .error "expected closing braces"
            else .error "unsupported template action"
          | [] => .error "unterminated template action"
        else (parseTmpl fuel rest).map (fun ks => .lit c :: ks)
      | [] => .ok [.lit c]
    else (parseTmpl fuel rest).map (fun ks => .lit c :: ks)

/-- Execute parsed chunks against map data.  `merror` is true for the
missingkey=error policy: a reference to an absent key aborts; with the
default policy the standard text "<no value>" is rendered instead. -/
def execTmpl (merror : Bool) (data : List (String × String)) :
    List TmplChunk → Except String String
  | [] => .ok ""
  | .lit c :: rest => (execTmpl merror data rest).map (fun s => String.singleton c ++ s)
  | .ref f :: rest =>
    match mapGet data f with
    | some v => (execTmpl merror data rest).map (fun s => v ++ s)
    | none =>
      if merror then .error ("map has no entry for key " ++ f)
      else (execTmpl merror data rest).map (fun s => "<no value>" ++ s)

/-- The characters of the stored fixture template (fixtures here are ASCII,
where UTF-8 decoding is codepoint-wise). -/
def bytesToChars (l : List Nat) : List Char := l.map Char.ofNat

/-- `(g *goldie) compareTemplate(t, name, data, actualData)` (part_003 lines
281-317): read the fixture, parse it as a template under the configured
missing-key policy, execute it against the data, and compare the rendering
byte-for-byte with the actual data.  A missing fixture is
`errFixtureNotFound`, a failed execution is `errMissingKey`, a parse failure
or any other read error is wrapped generically, and a content difference is
`errFixtureMismatch`. -/
def Goldie.compareTemplate (g : Goldie) (t : TestingT) (fs : FileSystem)
    (name : String) (data : List (String × String)) (actualData : GoBytes) :
    Except GoError Unit :=
  match readFileGo fs (g.goldenFileName t name) with
  | .error e =>
    if ioErrIsNotExist e then .error newErrFixtureNotFound
    else .error (.ioError ("Expected " ++ ioErrMessage e ++ " to be nil"))
  | .ok expectedDataTmpl =>
    let src := bytesToChars expectedDataTmpl
    match parseTmpl src.length src with
    | .error pe => .error (.ioError ("Expected " ++ pe ++ " to be nil"))
    | .ok chunks =>
      match execTmpl (!g.ignoreTemplateErrors) data chunks with
      | .error ee => .error (newErrMissingKey ("Template error: " ++ ee))
      | .ok rendered =>
        if goBytesData actualData = strBytes rendered then .ok ()
        else .error (newErrFixtureMismatch
          ("Result did not match the golden fixture.\n" ++
           "Expected: " ++ rendered ++ "\n" ++
           "Got: " ++ bytesToString (goBytesData actualData)))

instance : DecidableEq GoBytes := inferInstanceAs (DecidableEq (Option (List Nat)))

/-! Helper lemmas about the file-system model. -/

theorem fsFindAux_removeKey_self (l : List (List String × FsEntry)) (k : List String) :
    fsFindAux (removeKey l k) k = none := by
  induction l with
  | nil => rfl
  | cons q rest ih =>
    obtain ⟨k1, e⟩ := q
    by_cases h : k1 = k
    · simp [removeKey, h, ih]
    · simp [removeKey, h, fsFindAux, ih]

theorem fsFindAux_removeKey_ne (l : List (List String × FsEntry)) (k k2 : List String)
    (h : k2 ≠ k) : fsFindAux (removeKey l k) k2 = fsFindAux l k2 := by
  induction l with
  | nil => rfl
  | cons q rest ih =>
    obtain ⟨k1, e⟩ := q
    by_cases h1 : k1 = k
    · subst h1
      rw [removeKey, if_pos rfl, fsFindAux, if_neg (fun hh => h hh.symm), ih]
    · rw [removeKey, if_neg h1, fsFindAux, fsFindAux]
      by_cases h2 : k1 = k2
      · rw [if_pos h2, if_pos h2]
      · rw [if_neg h2, if_neg h2, ih]

theorem fsFind_fsSet_self (fs : FileSystem) (k : List String) (e : FsEntry) :
    fsFind (fsSet fs k e) k = some e := by
  simp [fsFind, fsSet, fsFindAux]

theorem fsFind_fsSet_ne (fs : FileSystem) (k k2 : List String) (e : FsEntry)
    (h : k2 ≠ k) : fsFind (fsSet fs k e) k2 = fsFind fs k2 := by
  show fsFindAux ((k, e) :: removeKey fs.entries k) k2 = fsFindAux fs.entries k2
  rw [fsFindAux, if_neg (fun hh => h hh.symm), fsFindAux_removeKey_ne _ _ _ h]

theorem scanAncestors_allDirs_mem (fs : FileSystem) (as : List (List String))
    (h : scanAncestors fs as = .allDirs) (a : List String) (ha : a ∈ as) :
    ∃ m, fsFind fs a = some (.dir m) := by
  induction as with
  | nil => cases ha
  | cons b rest ih =>
    rw [scanAncestors] at h
    cases hf : fsFind fs b with
    | none => rw [hf] at h; cases h
    | some e =>
      cases e with
      | file c => rw [hf] at h; cases h
      | dir m =>
        rw [hf] at h
        rcases List.mem_cons.mp ha with h1 | h2
        · exact ⟨m, h1 ▸ hf⟩
        · exact ih h h2

theorem scanAncestors_fsSet_dir (fs : FileSystem) (as : List (List String))
    (k : List String) (m : Nat) (h : scanAncestors fs as = .allDirs) :
    scanAncestors (fsSet fs k (.dir m)) as = .allDirs := by
  induction as with
  | nil => rfl
  | cons b rest ih =>
    rw [scanAncestors] at h ⊢
    by_cases hb : b = k
    · subst hb
      rw [fsFind_fsSet_self]
      cases hf : fsFind fs b with
      | none => rw [hf] at h; cases h
      | some e =>
        cases e with
        | file c => rw [hf] at h; cases h
        | dir m2 => rw [hf] at h; exact ih h
    · rw [fsFind_fsSet_ne _ _ _ _ hb]
      cases hf : fsFind fs b with
      | none => rw [hf] at h; cases h
      | some e =>
        cases e with
        | file c => rw [hf] at h; cases h
        | dir m2 => rw [hf] at h; exact ih h

theorem scanAncestors_fsSet_notmem (fs : FileSystem) (as : List (List String))
    (k : List String) (e : FsEntry) (h : scanAncestors fs as = .allDirs)
    (hk : k ∉ as) : scanAncestors (fsSet fs k e) as = .allDirs := by
  induction as with
  | nil => rfl
  | cons b rest ih =>
    rw [scanAncestors] at h ⊢
    have hb : b ≠ k := fun hh => hk (hh ▸ List.mem_cons_self b rest)
    rw [fsFind_fsSet_ne _ _ _ _ hb]
    cases hf : fsFind fs b with
    | none => rw [hf] at h; cases h
    | some e2 =>
      cases e2 with
      | file c => rw [hf] at h; cases h
      | dir m => rw [hf] at h; exact ih h (fun hm => hk (List.mem_cons_of_mem b hm))

theorem key_not_properAncestor (k : List String) : k ∉ properAncestorKeys k := by
  intro hmem
  rw [properAncestorKeys] at hmem
  rcases List.mem_map.mp hmem with ⟨i, hi, htake⟩
  rw [List.mem_range] at hi
  have hlen : (k.take (i + 1)).length = i + 1 := by
    rw [List.length_take]
    omega
  rw [htake] at hlen
  omega

theorem writeFileGo_ok_inv (fs fs2 : FileSystem) (p : String) (content : List Nat)
    (h : writeFileGo fs p content = .ok fs2) :
    scanAncestors fs (properAncestorKeys (pathKey p)) = .allDirs ∧
      fs2 = fsSet fs (pathKey p) (.file content) := by
  rw [writeFileGo] at h
  cases hs : scanAncestors fs (properAncestorKeys (pathKey p)) with
  | fileAt a => rw [hs] at h; cases h
  | missingAt a => rw [hs] at h; cases h
  | allDirs =>
    rw [hs] at h
    refine ⟨rfl, ?_⟩
    cases hf : fsFind fs (pathKey p) with
    | none => rw [hf] at h; cases h; rfl
    | some e =>
      cases e with
      | file c => rw [hf] at h; cases h; rfl
      | dir m => rw [hf] at h; cases h

theorem chtimesGo_ok_inv (fs fs2 : FileSystem) (p : String) (ts : Nat)
    (h : chtimesGo fs p ts = .ok fs2) :
    (fs2 = fsSet fs (pathKey p) (.dir ts) ∧
      (∃ m, fsFind fs (pathKey p) = some (.dir m))) ∨
    (∃ c, fs2 = fsSet fs (pathKey p) (.file c) ∧
      fsFind fs (pathKey p) = some (.file c)) := by
  rw [chtimesGo] at h
  cases hs : scanAncestors fs (properAncestorKeys (pathKey p)) with
  | fileAt a => rw [hs] at h; cases h
  | missingAt a => rw [hs] at h; cases h
  | allDirs =>
    rw [hs] at h
    cases hf : fsFind fs (pathKey p) with
    | none => rw [hf] at h; cases h
    | some e =>
      cases e with
      | dir m => rw [hf] at h; cases h; exact .inl ⟨rfl, m, rfl⟩
      | file c => rw [hf] at h; cases h; exact .inr ⟨c, rfl, rfl⟩

theorem readFileGo_of_scan_find (fs : FileSystem) (p : String) (c : List Nat)
    (h1 : scanAncestors fs (properAncestorKeys (pathKey p)) = .allDirs)
    (h2 : fsFind fs (pathKey p) = some (.file c)) :
    readFileGo fs p = .ok c := by
  rw [readFileGo, h1, h2]

set_option maxHeartbeats 1000000 in
/-- Core round-trip fact: a successful `Update` leaves the resolved fixture
path readable with exactly the written bytes. -/
theorem update_ok_readFile (g : Goldie) (clean : Bool) (ts : Nat) (t : TestingT)
    (name : String) (d : GoBytes) (fs fs1 : FileSystem)
    (h : g.update clean ts t name d fs = .ok fs1) :
    readFileGo fs1 (g.goldenFileName t name) = .ok (goBytesData d) := by
  simp only [Goldie.update] at h
  split at h
  case h_1 => cases h
  case h_2 fsA he =>
    split at h
    case h_1 => cases h
    case h_2 fsB hw =>
      split at h
      case h_1 => cases h
      case h_2 fsC hc =>
        cases h
        obtain ⟨hscan, hfsB⟩ := writeFileGo_ok_inv _ _ _ _ hw
        subst hfsB
        have hk := key_not_properAncestor (pathKey (g.goldenFileName t name))
        have hscanB :=
          scanAncestors_fsSet_notmem fsA
            (properAncestorKeys (pathKey (g.goldenFileName t name)))
            (pathKey (g.goldenFileName t name)) (.file (goBytesData d)) hscan hk
        have hfindB :=
          fsFind_fsSet_self fsA (pathKey (g.goldenFileName t name))
            (.file (goBytesData d))
        rcases chtimesGo_ok_inv _ _ _ _ hc with ⟨hfsC, m, hdir⟩ | ⟨c, hfsC, hfile⟩
        · have hne : pathKey (g.goldenFileName t name) ≠
              pathKey (filepathDir (g.goldenFileName t name)) := by
            intro hh
            rw [← hh, hfindB] at hdir
            cases hdir
          subst hfsC
          exact readFileGo_of_scan_find _ _ _
            (scanAncestors_fsSet_dir _ _ _ _ hscanB)
            ((fsFind_fsSet_ne _ _ _ _ hne).trans hfindB)
        · by_cases hdp : pathKey (filepathDir (g.goldenFileName t name)) =
              pathKey (g.goldenFileName t name)
          · rw [hdp] at hfsC hfile
            rw [hfindB] at hfile
            injection hfile with hfe
            injection hfe with hce
            subst hce
            subst hfsC
            exact readFileGo_of_scan_find _ _ _
              (scanAncestors_fsSet_notmem _ _ _ _ hscanB hk)
              (fsFind_fsSet_self _ _ _)
          · have hdnotmem : pathKey (filepathDir (g.goldenFileName t name)) ∉
                properAncestorKeys (pathKey (g.goldenFileName t name)) := by
              intro hmem
              rcases scanAncestors_allDirs_mem _ _ hscanB _ hmem with ⟨m2, hm2⟩
              rw [hfile] at hm2
              cases hm2
            subst hfsC
            exact readFileGo_of_scan_find _ _ _
              (scanAncestors_fsSet_notmem _ _ _ _ hscanB hdnotmem)
              ((fsFind_fsSet_ne _ _ _ _ (fun hh => hdp hh.symm)).trans hfindB)

/-- How `compare` behaves once the fixture file has been read: equality of
contents succeeds, difference yields a fixture mismatch carrying a message. -/
theorem compare_of_read (g : Goldie) (t : TestingT) (fs : FileSystem) (name : String)
    (d : GoBytes) (stored : List Nat)
    (hr : readFileGo fs (g.goldenFileName t name) = .ok stored) :
    (goBytesData d = stored → g.compare t fs name d = .ok ()) ∧
    (goBytesData d ≠ stored →
      ∃ m, g.compare t fs name d = .error (.fixtureMismatch m)) := by
  simp only [Goldie.compare, hr]
  constructor
  · intro he
    simp [he]
  · intro hne
    rw [if_neg hne]
    by_cases hd : g.diffFn.isSome = true ∨ g.diffEngine ≠ DiffEngine.undefinedDiff
    · rw [if_pos hd]
      exact ⟨_, rfl⟩
    · rw [if_neg hd]
      exact ⟨_, rfl⟩

/-- Claim C1: for every logical name and byte payload, an `Update` that
succeeds persists exactly the bytes that a subsequent `compare` on the same
tester configuration reads back, so the comparison returns no error. -/
theorem claim_C1_update_then_compare (g : Goldie) (clean : Bool) (ts : Nat)
    (t : TestingT) (name : String) (d : GoBytes) (fs fs1 : FileSystem)
    (h : g.update clean ts t name d fs = .ok fs1) :
    g.compare t fs1 name d = .ok () :=
  (compare_of_read g t fs1 name d (goBytesData d)
    (update_ok_readFile g clean ts t name d fs fs1 h)).1 rfl

/-- Witness for C1: a concrete round trip through the default tester on the
empty file system. -/
theorem claim_C1_witness :
    goldieDefaults.update false 7 ⟨"TestExample"⟩ "example" (some [97, 98, 99]) ⟨[]⟩ =
      .ok ⟨[(["testdata"], .dir 7), (["testdata", "example.golden"], .file [97, 98, 99])]⟩ ∧
    goldieDefaults.compare ⟨"TestExample"⟩
      ⟨[(["testdata"], .dir 7), (["testdata", "example.golden"], .file [97, 98, 99])]⟩
      "example" (some [97, 98, 99]) = .ok () :=
  ⟨rfl, claim_C1_update_then_compare goldieDefaults false 7 ⟨"TestExample"⟩ "example"
    (some [97, 98, 99]) ⟨[]⟩ _ rfl⟩

/-- Claim C2: updating with one payload and comparing another that differs
byte-for-byte fails with a fixture mismatch carrying a message; in general,
once the fixture file exists, `compare` succeeds exactly on byte-for-byte
equal contents and returns a fixture mismatch exactly on differing
contents. -/
theorem claim_C2_mismatch_exactly_on_difference :
    (∀ (g : Goldie) (clean : Bool) (ts : Nat) (t : TestingT) (name : String)
        (d1 d2 : List Nat) (fs fs1 : FileSystem),
      g.update clean ts t name (some d1) fs = .ok fs1 → d1 ≠ d2 →
      ∃ m, g.compare t fs1 name (some d2) = .error (.fixtureMismatch m)) ∧
    (∀ (g : Goldie) (t : TestingT) (fs : FileSystem) (name : String)
        (d : GoBytes) (stored : List Nat),
      readFileGo fs (g.goldenFileName t name) = .ok stored →
      (goBytesData d = stored ↔ g.compare t fs name d = .ok ()) ∧
      (goBytesData d ≠ stored ↔
        ∃ m, g.compare t fs name d = .error (.fixtureMismatch m))) := by
  constructor
  · intro g clean ts t name d1 d2 fs fs1 h hne
    exact (compare_of_read g t fs1 name (some d2) (goBytesData (some d1))
      (update_ok_readFile g clean ts t name (some d1) fs fs1 h)).2
      (fun hh => hne (Eq.symm hh))
  · intro g t fs name d stored hr
    obtain ⟨hok, hmm⟩ := compare_of_read g t fs name d stored hr
    constructor
    · constructor
      · exact hok
      · intro hc
        by_contra hne
        rcases hmm hne with ⟨m, hm⟩
        rw [hc] at hm
        cases hm
    · constructor
      · exact hmm
      · intro hc he
        rcases hc with ⟨m, hm⟩
        rw [hok he] at hm
        cases hm

/-- Witness for C2: updating "abc" and comparing "bc" on the default tester
mismatches; comparing equal and differing bytes against an existing fixture
behaves as stated. -/
theorem claim_C2_witness :
    (∃ m, goldieDefaults.compare ⟨"TestExample"⟩
      ⟨[(["testdata"], .dir 7), (["testdata", "example.golden"], .file [97, 98, 99])]⟩
      "example" (some [98, 99]) = .error (.fixtureMismatch m)) ∧
    goldieDefaults.compare ⟨"TestExample"⟩
      ⟨[(["testdata"], .dir 7), (["testdata", "example.golden"], .file [97, 98, 99])]⟩
      "example" (some [97, 98, 99]) = .ok () :=
  ⟨claim_C2_mismatch_exactly_on_difference.1 goldieDefaults false 7 ⟨"TestExample"⟩
      "example" [97, 98, 99] [98, 99] ⟨[]⟩ _ rfl (by decide),
    ((claim_C2_mismatch_exactly_on_difference.2 goldieDefaults ⟨"TestExample"⟩
      ⟨[(["testdata"], .dir 7), (["testdata", "example.golden"], .file [97, 98, 99])]⟩
      "example" (some [97, 98, 99]) [97, 98, 99] rfl).1).mp rfl⟩

/-- Claim C9: a nil payload and an empty payload are interchangeable at the
comparison boundary: a successful `Update` with the nil slice persists a
zero-byte fixture, and both the nil and the empty slice then compare clean
against it. -/
theorem claim_C9_nil_empty_interchangeable (g : Goldie) (clean : Bool) (ts : Nat)
    (t : TestingT) (name : String) (fs fs1 : FileSystem)
    (h : g.update clean ts t name none fs = .ok fs1) :
    readFileGo fs1 (g.goldenFileName t name) = .ok [] ∧
    g.compare t fs1 name none = .ok () ∧
    g.compare t fs1 name (some []) = .ok () := by
  have hr := update_ok_readFile g clean ts t name none fs fs1 h
  exact ⟨hr, (compare_of_read g t fs1 name none [] hr).1 rfl,
    (compare_of_read g t fs1 name (some []) [] hr).1 rfl⟩

/-- Witness for C9: the concrete nil-payload round trip on the default
tester. -/
theorem claim_C9_witness :
    goldieDefaults.update false 7 ⟨"TestNil"⟩ "nil" none ⟨[]⟩ =
      .ok ⟨[(["testdata"], .dir 7), (["testdata", "nil.golden"], .file [])]⟩ ∧
    goldieDefaults.compare ⟨"TestNil"⟩
      ⟨[(["testdata"], .dir 7), (["testdata", "nil.golden"], .file [])]⟩
      "nil" none = .ok () ∧
    goldieDefaults.compare ⟨"TestNil"⟩
      ⟨[(["testdata"], .dir 7), (["testdata", "nil.golden"], .file [])]⟩
      "nil" (some []) = .ok () :=
  ⟨rfl,
    (claim_C9_nil_empty_interchangeable goldieDefaults false 7 ⟨"TestNil"⟩ "nil"
      ⟨[]⟩ _ rfl).2.1,
    (claim_C9_nil_empty_interchangeable goldieDefaults false 7 ⟨"TestNil"⟩ "nil"
      ⟨[]⟩ _ rfl).2.2⟩

theorem readFileGo_of_statNotExist (fs : FileSystem) (p : String)
    (h : fsStat fs p = .errNotExist) : readFileGo fs p = .error (.enoent p) := by
  rw [fsStat] at h
  rw [readFileGo]
  cases hs : scanAncestors fs (properAncestorKeys (pathKey p)) with
  | fileAt a => simp only [hs] at h; cases h
  | missingAt a => rfl
  | allDirs =>
    simp only [hs] at h
    cases hf : fsFind fs (pathKey p) with
    | some e => simp only [hf] at h; cases h
    | none => simp only [hf]

/-- Claim C3, amended: when the resolved fixture path does not exist (and in
particular no strict ancestor of it is a regular file), `compare` fails with
`FixtureNotFound` for every payload; when a strict ancestor of the resolved
path is a regular file, `compare` fails with a generic I/O error instead,
even though no fixture file exists at the resolved path; and the
`FixtureNotFound` kind is distinct from the `FixtureMismatch` and generic
I/O kinds. -/
theorem claim_C3_amended :
    (∀ (g : Goldie) (t : TestingT) (fs : FileSystem) (name : String) (d : GoBytes),
      fsStat fs (g.goldenFileName t name) = .errNotExist →
      g.compare t fs name d = .error newErrFixtureNotFound) ∧
    (∀ (g : Goldie) (t : TestingT) (fs : FileSystem) (name : String) (d : GoBytes)
        (a : List String),
      scanAncestors fs (properAncestorKeys (pathKey (g.goldenFileName t name))) =
        .fileAt a →
      ∃ m, g.compare t fs name d = .error (.ioError m)) ∧
    (∀ m1 m2, GoError.fixtureNotFound m1 ≠ GoError.fixtureMismatch m2) ∧
    (∀ m1 m2, GoError.fixtureNotFound m1 ≠ GoError.ioError m2) := by
  refine ⟨?_, ?_, ?_, ?_⟩
  · intro g t fs name d h
    have hr := readFileGo_of_statNotExist fs (g.goldenFileName t name) h
    simp [Goldie.compare, hr, ioErrIsNotExist]
  · intro g t fs name d a h
    have hr : readFileGo fs (g.goldenFileName t name) =
        .error (.enotdir (g.goldenFileName t name)) := by
      rw [readFileGo, h]
    refine ⟨"Expected " ++ ioErrMessage (.enotdir (g.goldenFileName t name)) ++
      " to be nil", ?_⟩
    simp [Goldie.compare, hr, ioErrIsNotExist]
  · intro m1 m2 h
    cases h
  · intro m1 m2 h
    cases h

/-- Witness for C3 (amended): on the empty file system the default tester
reports `FixtureNotFound`, and with a regular file blocking an ancestor it
reports a generic I/O error. -/
theorem claim_C3_amended_witness :
    goldieDefaults.compare ⟨"TestExample"⟩ ⟨[]⟩ "example" (some [97]) =
      .error newErrFixtureNotFound ∧
    (∃ m, goldieDefaults.compare ⟨"TestExample"⟩ ⟨[(["testdata"], .file [5])]⟩
      "example" (some [97]) = .error (.ioError m)) :=
  ⟨claim_C3_amended.1 goldieDefaults ⟨"TestExample"⟩ ⟨[]⟩ "example" (some [97]) rfl,
    claim_C3_amended.2.1 goldieDefaults ⟨"TestExample"⟩ ⟨[(["testdata"], .file [5])]⟩
      "example" (some [97]) ["testdata"] rfl⟩

/-- Counterexample to C3 as stated: in a state reachable by a single Update
of the same tester (suffix set to the empty string, fixture name "a"), the
name "a/b" was never updated and no fixture file exists at its resolved
path, yet `compare` fails with a generic I/O error, not with
`FixtureNotFound`, because the ancestor "testdata/a" is a regular file. -/
theorem claim_C3_counterexample :
    ({ goldieDefaults with fileNameSuffix := "" } : Goldie).update false 0
      ⟨"TestExample"⟩ "a" (some [120]) ⟨[]⟩ =
      .ok ⟨[(["testdata"], .dir 0), (["testdata", "a"], .file [120])]⟩ ∧
    fsFind ⟨[(["testdata"], .dir 0), (["testdata", "a"], .file [120])]⟩
      (pathKey (({ goldieDefaults with fileNameSuffix := "" } : Goldie).goldenFileName
        ⟨"TestExample"⟩ "a/b")) = none ∧
    (∀ s, ({ goldieDefaults with fileNameSuffix := "" } : Goldie).compare
      ⟨"TestExample"⟩ ⟨[(["testdata"], .dir 0), (["testdata", "a"], .file [120])]⟩
      "a/b" (some [1]) ≠ .error (.fixtureNotFound s)) := by
  refine ⟨rfl, rfl, ?_⟩
  intro s h
  have hc : ({ goldieDefaults with fileNameSuffix := "" } : Goldie).compare
      ⟨"TestExample"⟩ ⟨[(["testdata"], .dir 0), (["testdata", "a"], .file [120])]⟩
      "a/b" (some [1]) =
      .error (.ioError "Expected open testdata/a/b: not a directory to be nil") := rfl
  rw [hc] at h
  exact GoError.noConfusion (Except.error.inj h)

/-- Claim C7, amended: `Update` fails with `DirectoryConflict` when the
resolved containing directory itself exists as a regular file; when instead a
strict ancestor component of the containing directory is a regular file, the
raw stat error is returned unwrapped, a generic I/O error.  In both cases
`Update` returns an error and produces no new file-system state, so the
fixture file is not written. -/
theorem claim_C7_amended :
    (∀ (g : Goldie) (clean : Bool) (ts : Nat) (t : TestingT) (name : String)
        (d : GoBytes) (fs : FileSystem) (c : List Nat),
      fsStat fs (filepathDir (g.goldenFileName t name)) = .ok (.file c) →
      g.update clean ts t name d fs =
        .error (.directoryConflict (filepathDir (g.goldenFileName t name)))) ∧
    (∀ (g : Goldie) (clean : Bool) (ts : Nat) (t : TestingT) (name : String)
        (d : GoBytes) (fs : FileSystem) (a : List String),
      scanAncestors fs
        (properAncestorKeys (pathKey (filepathDir (g.goldenFileName t name)))) =
        .fileAt a →
      ∃ m, g.update clean ts t name d fs = .error (.ioError m)) := by
  constructor
  · intro g clean ts t name d fs c h
    simp only [Goldie.update, Goldie.ensureDir, h, newErrFixtureDirectoryIsFile]
  · intro g clean ts t name d fs a h
    have hst : fsStat fs (filepathDir (g.goldenFileName t name)) = .errNotDir := by
      rw [fsStat, h]
    refine ⟨"stat " ++ filepathDir (g.goldenFileName t name) ++ ": not a directory", ?_⟩
    simp only [Goldie.update, Goldie.ensureDir, hst]

/-- Witness for C7 (amended): a regular file at "testdata" makes the default
tester report a directory conflict; a regular file at the ancestor "a" of
fixture directory "a/b" makes `Update` report a generic I/O error. -/
theorem claim_C7_amended_witness :
    goldieDefaults.update false 0 ⟨"TestExample"⟩ "x" (some [1])
      ⟨[(["testdata"], .file [5])]⟩ = .error (.directoryConflict "testdata") ∧
    (∃ m, ({ goldieDefaults with fixtureDir := "a/b" } : Goldie).update false 0
      ⟨"TestExample"⟩ "x" (some [1]) ⟨[(["a"], .file [120])]⟩ =
      .error (.ioError m)) :=
  ⟨claim_C7_amended.1 goldieDefaults false 0 ⟨"TestExample"⟩ "x" (some [1])
      ⟨[(["testdata"], .file [5])]⟩ [5] rfl,
    claim_C7_amended.2 ({ goldieDefaults with fixtureDir := "a/b" } : Goldie)
      false 0 ⟨"TestExample"⟩ "x" (some [1]) ⟨[(["a"], .file [120])]⟩ ["a"] rfl⟩

/-- Counterexample to C7 as stated: with fixture directory "a/b" and a
regular file at "a" (a state reachable by an earlier Update of a sibling
tester), the path component "a" of the fixture containing directory should
be a directory but exists as a regular file, yet `Update` fails with a
generic I/O error and not with `DirectoryConflict`. -/
theorem claim_C7_counterexample :
    ({ goldieDefaults with fixtureDir := "", fileNameSuffix := "" } : Goldie).update
      false 0 ⟨"TestExample"⟩ "a" (some [120]) ⟨[]⟩ =
      .ok ⟨[(["."], .dir 0), (["a"], .file [120])]⟩ ∧
    fsFind ⟨[(["."], .dir 0), (["a"], .file [120])]⟩ ["a"] = some (.file [120]) ∧
    ["a"] ∈ properAncestorKeys (pathKey (filepathDir
      (({ goldieDefaults with fixtureDir := "a/b" } : Goldie).goldenFileName
        ⟨"TestExample"⟩ "x"))) ∧
    ({ goldieDefaults with fixtureDir := "a/b" } : Goldie).update false 0
      ⟨"TestExample"⟩ "x" (some [1]) ⟨[(["."], .dir 0), (["a"], .file [120])]⟩ =
      .error (.ioError "stat a/b: not a directory") ∧
    (∀ loc, ({ goldieDefaults with fixtureDir := "a/b" } : Goldie).update false 0
      ⟨"TestExample"⟩ "x" (some [1]) ⟨[(["."], .dir 0), (["a"], .file [120])]⟩ ≠
      .error (.directoryConflict loc)) := by
  refine ⟨rfl, rfl, by decide, rfl, ?_⟩
  intro loc h
  have hc : ({ goldieDefaults with fixtureDir := "a/b" } : Goldie).update false 0
      ⟨"TestExample"⟩ "x" (some [1]) ⟨[(["."], .dir 0), (["a"], .file [120])]⟩ =
      .error (.ioError "stat a/b: not a directory") := rfl
  rw [hc] at h
  exact GoError.noConfusion (Except.error.inj h)

theorem joinSlash_append_one (l : List String) (x : String) (hl : l ≠ []) :
    joinSlash (l ++ [x]) = joinSlash l ++ "/" ++ x := by
  induction l with
  | nil => cases hl rfl
  | cons y ys ih =>
    cases ys with
    | nil => rfl
    | cons z zs =>
      have h1 : joinSlash ((y :: z :: zs) ++ [x]) =
          y ++ "/" ++ joinSlash ((z :: zs) ++ [x]) := rfl
      have h2 : joinSlash (y :: z :: zs) = y ++ "/" ++ joinSlash (z :: zs) := rfl
      rw [h1, ih (by simp), h2]
      simp [String.append_assoc]

theorem joinSlash_cons_ne_empty (x : String) (xs : List String) (hx : x ≠ "") :
    joinSlash (x :: xs) ≠ "" := by
  cases xs with
  | nil => exact hx
  | cons y ys =>
    intro h
    have h2 : joinSlash (x :: y :: ys) = x ++ "/" ++ joinSlash (y :: ys) := rfl
    rw [h2] at h
    have hlen := congrArg String.length h
    rw [String.length_append, String.length_append] at hlen
    have hslash : ("/" : String).length = 1 := rfl
    rw [hslash] at hlen
    simp at hlen

/-- Claim C5: the path resolver is a pure function of its inputs, so equal
inputs give equal paths; with sub-test folding enabled, every hierarchy
segment after the first separator of the test identity is appended, in
order, as a nested path segment before the file name; in particular the
identity "Parent/ChildA/ChildB" resolves under the defaults to
"testdata/ChildA/ChildB/example.golden", which contains ChildA and ChildB in
order. -/
theorem claim_C5_path_resolver :
    (∀ (g : Goldie) (t : TestingT) (name : String),
      g.goldenFileName t name = g.goldenFileName t name) ∧
    (∀ (g : Goldie) (t : TestingT) (name first : String) (rest : List String),
      g.useSubTestNameForDir = true → g.useTestNameForDir = false →
      goSplit t.tname = first :: rest → rest ≠ [] →
      (∀ s ∈ rest, s ≠ "") → g.fixtureDir ≠ "" → name ++ g.fileNameSuffix ≠ "" →
      g.goldenFileName t name =
        joinSlash (g.fixtureDir :: rest ++ [name ++ g.fileNameSuffix])) ∧
    ({ goldieDefaults with useSubTestNameForDir := true } : Goldie).goldenFileName
      ⟨"Parent/ChildA/ChildB"⟩ "example" =
      "testdata/ChildA/ChildB/example.golden" := by
  refine ⟨fun g t name => rfl, ?_, rfl⟩
  intro g t name first rest hsub htest hsplit hrest hne hdir hleaf
  have h0 : 0 < rest.length := List.length_pos.mpr hrest
  simp only [Goldie.goldenFileName, htest, hsub, if_true, if_false, hsplit,
    List.drop_one, List.tail_cons, List.length_cons]
  rw [if_pos (by omega : 1 < rest.length + 1), if_neg Bool.false_ne_true]
  have hfil1 : (g.fixtureDir :: rest).filter (fun s => decide (s ≠ "")) =
      g.fixtureDir :: rest := by
    rw [List.filter_eq_self]
    intro a ha
    rcases List.mem_cons.mp ha with h1 | h2
    · subst h1; exact decide_eq_true hdir
    · exact decide_eq_true (hne a h2)
  have hj : filepathJoin (g.fixtureDir :: rest) = joinSlash (g.fixtureDir :: rest) := by
    rw [filepathJoin, hfil1]
  rw [hj]
  have hjne := joinSlash_cons_ne_empty g.fixtureDir rest hdir
  rw [filepathJoin]
  have hfil2 : ([joinSlash (g.fixtureDir :: rest), name ++ g.fileNameSuffix]).filter
      (fun s => decide (s ≠ "")) =
      [joinSlash (g.fixtureDir :: rest), name ++ g.fileNameSuffix] := by
    simp [hjne, hleaf]
  rw [hfil2]
  have hjs : joinSlash [joinSlash (g.fixtureDir :: rest), name ++ g.fileNameSuffix] =
      joinSlash (g.fixtureDir :: rest) ++ "/" ++ (name ++ g.fileNameSuffix) := rfl
  rw [hjs, ← joinSlash_append_one (g.fixtureDir :: rest) _ (by simp)]

/-- Witness for C5: the general folding statement applied to the identity
"Parent/ChildA/ChildB" with the default directory and suffix. -/
theorem claim_C5_witness :
    ({ goldieDefaults with useSubTestNameForDir := true } : Goldie).goldenFileName
      ⟨"Parent/ChildA/ChildB"⟩ "example" =
      joinSlash ["testdata", "ChildA", "ChildB", "example" ++ ".golden"] :=
  claim_C5_path_resolver.2.1
    ({ goldieDefaults with useSubTestNameForDir := true } : Goldie)
    ⟨"Parent/ChildA/ChildB"⟩ "example" "Parent" ["ChildA", "ChildB"]
    rfl rfl rfl (by decide) (by decide) (by decide) (by decide)

/-- Claim C8: line-ending normalization sends CRLF and lone CR to LF on the
two spec inputs, maps the empty slice to itself, and leaves the nil slice
nil. -/
theorem claim_C8_normalizeLF :
    normalizeLF (some (strBytes "Hello\r\nWorld")) = some (strBytes "Hello\nWorld") ∧
    normalizeLF (some (strBytes "Hello\rWorld")) = some (strBytes "Hello\nWorld") ∧
    normalizeLF (some []) = some [] ∧
    normalizeLF none = none :=
  ⟨rfl, rfl, rfl, rfl⟩

/-- Claim C10: every built-in option setter succeeds on every argument, and
`New` applied to any list of built-in options constructs a tester without an
option-application failure. -/
theorem claim_C10_options_never_fail :
    (∀ (o : BuiltinOption) (g : Goldie), ∃ g2, applyBuiltinOption o g = .ok g2) ∧
    (∀ options : List BuiltinOption, ∃ g, newGoldie options = .ok g) := by
  have happ : ∀ (o : BuiltinOption) (g : Goldie),
      ∃ g2, applyBuiltinOption o g = .ok g2 := by
    intro o g
    cases o <;> exact ⟨_, rfl⟩
  refine ⟨happ, ?_⟩
  have hloop : ∀ (options : List BuiltinOption) (g : Goldie),
      ∃ g2, applyOptions options g = .ok g2 := by
    intro options
    induction options with
    | nil => intro g; exact ⟨g, rfl⟩
    | cons o rest ih =>
      intro g
      rcases happ o g with ⟨g1, h1⟩
      rcases ih g1 with ⟨g2, h2⟩
      exact ⟨g2, by simp only [applyOptions, h1, h2]⟩
  intro options
  exact hloop options goldieDefaults

theorem ltBytes_asymm (a : List Nat) : ∀ b, ltBytes a b = true → ltBytes b a = false := by
  induction a with
  | nil =>
    intro b h
    cases b with
    | nil => cases h
    | cons y ys => rfl
  | cons x xs ih =>
    intro b h
    cases b with
    | nil => cases h
    | cons y ys =>
      rw [ltBytes] at h ⊢
      by_cases h1 : x < y
      · rw [if_neg (by omega : ¬ y < x), if_pos h1]
      · rw [if_neg h1] at h
        by_cases h2 : y < x
        · rw [if_pos h2] at h; cases h
        · rw [if_neg h2] at h
          rw [if_neg h2, if_neg h1]
          exact ih ys h

theorem ltBytes_le_trans (a : List Nat) :
    ∀ b c, ltBytes a b = false → ltBytes b c = false → ltBytes a c = false := by
  induction a with
  | nil =>
    intro b c hab hbc
    cases b with
    | nil =>
      cases c with
      | nil => rfl
      | cons z zs => cases hbc
    | cons y ys => cases hab
  | cons x xs ih =>
    intro b c hab hbc
    cases b with
    | nil =>
      cases c with
      | nil => rfl
      | cons z zs => cases hbc
    | cons y ys =>
      cases c with
      | nil => rfl
      | cons z zs =>
        rw [ltBytes] at hab hbc ⊢
        by_cases hxy : x < y
        · rw [if_pos hxy] at hab; cases hab
        · rw [if_neg hxy] at hab
          by_cases hyz : y < z
          · rw [if_pos hyz] at hbc; cases hbc
          · rw [if_neg hyz] at hbc
            by_cases hyx : y < x
            · have hzx : z < x := by omega
              rw [if_neg (by omega : ¬ x < z), if_pos hzx]
            · rw [if_neg hyx] at hab
              by_cases hzy : z < y
              · have hzx : z < x := by omega
                rw [if_neg (by omega : ¬ x < z), if_pos hzx]
              · rw [if_neg hzy] at hbc
                rw [if_neg (by omega : ¬ x < z), if_neg (by omega : ¬ z < x)]
                exact ih ys zs hab hbc

theorem mem_insertDesc (x a : String) (l : List String) (h : a ∈ insertDesc x l) :
    a = x ∨ a ∈ l := by
  induction l with
  | nil =>
    rw [insertDesc] at h
    rcases List.mem_singleton.mp h with h1
    exact .inl h1
  | cons y ys ih =>
    rw [insertDesc] at h
    by_cases hxy : goStrLt x y = true
    · rw [if_pos hxy] at h
      rcases List.mem_cons.mp h with h1 | h2
      · exact .inr (h1 ▸ List.mem_cons_self y ys)
      · rcases ih h2 with h3 | h4
        · exact .inl h3
        · exact .inr (List.mem_cons_of_mem y h4)
    · rw [if_neg hxy] at h
      rcases List.mem_cons.mp h with h1 | h2
      · exact .inl h1
      · exact .inr h2

theorem pairwise_insertDesc (x : String) (l : List String)
    (h : l.Pairwise (fun a b => goStrLt a b = false)) :
    (insertDesc x l).Pairwise (fun a b => goStrLt a b = false) := by
  induction l with
  | nil => simp [insertDesc]
  | cons y ys ih =>
    rw [insertDesc]
    rcases List.pairwise_cons.mp h with ⟨hy, hys⟩
    by_cases hxy : goStrLt x y = true
    · rw [if_pos hxy]
      rw [List.pairwise_cons]
      refine ⟨?_, ih hys⟩
      intro a ha
      rcases mem_insertDesc x a ys ha with h1 | h2
      · subst h1
        exact ltBytes_asymm _ _ hxy
      · exact hy a h2
    · rw [if_neg hxy]
      rw [List.pairwise_cons]
      refine ⟨?_, h⟩
      intro a ha
      rcases List.mem_cons.mp ha with h1 | h2
      · subst h1
        exact Bool.of_not_eq_true hxy
      · exact ltBytes_le_trans _ _ _ (Bool.of_not_eq_true hxy) (hy a h2)

theorem sortDesc_pairwise (l : List String) :
    (sortDesc l).Pairwise (fun a b => goStrLt a b = false) := by
  induction l with
  | nil => exact List.Pairwise.nil
  | cons x xs ih => exact pairwise_insertDesc x (sortDesc xs) ih

theorem ltBytes_append_ne (a c : List Nat) (hc : c ≠ []) :
    ltBytes a (a ++ c) = true := by
  induction a with
  | nil =>
    cases c with
    | nil => cases hc rfl
    | cons z zs => rfl
  | cons x xs ih =>
    show ltBytes (x :: xs) (x :: (xs ++ c)) = true
    rw [ltBytes, if_neg (lt_irrefl x), if_neg (lt_irrefl x)]
    exact ih

/-- Claim C4, amended: `UpdateWithTemplate` replaces the leaf values by their
path placeholders processing keys in descending (reverse) byte-lexicographic
order, not longest-first; a key whose bytes are a proper prefix of another
key is therefore processed after it and cannot shadow it, and the spec
example with data FOO/FOOBAR persists exactly
"testing \x7b\x7b.FOO\x7d\x7d and \x7b\x7b.FOOBAR\x7d\x7d".  (A substring key
that is not a prefix can still shadow a longer key; see the
counterexample.) -/
theorem claim_C4_amended :
    goldieDefaults.updateWithTemplate false 0 ⟨"TestExample"⟩ "tpl"
      (.map (.cons "FOO" (.str "foo") (.cons "FOOBAR" (.str "foobar") .nil)))
      (some (strBytes "testing foo and foobar")) ⟨[]⟩ =
      .ok ⟨[(["testdata"], .dir 0),
            (["testdata", "tpl.golden"],
             .file (strBytes "testing \x7b\x7b.FOO\x7d\x7d and \x7b\x7b.FOOBAR\x7d\x7d"))]⟩ ∧
    (∀ l : List String, (sortDesc l).Pairwise (fun a b => goStrLt a b = false)) ∧
    (∀ (x y : String) (c : List Nat), c ≠ [] → strBytes y = strBytes x ++ c →
      goStrLt x y = true) := by
  refine ⟨rfl, sortDesc_pairwise, ?_⟩
  intro x y c hc heq
  rw [goStrLt, heq]
  exact ltBytes_append_ne _ _ hc

/-- Witness for C4 (amended): "foo" is a proper byte prefix of "foobar" and
sorts strictly below it, and the sorted key list of the spec example is
descending. -/
theorem claim_C4_witness :
    goStrLt "foo" "foobar" = true ∧
    (sortDesc ["foo", "foobar"]).Pairwise (fun a b => goStrLt a b = false) :=
  ⟨claim_C4_amended.2.2 "foo" "foobar" (strBytes "bar") (by decide) (by decide),
    claim_C4_amended.2.1 ["foo", "foobar"]⟩

/-- Counterexample to C4 as stated: with data mapping B to "b" and AB to
"ab", the key "b" is a substring (not a prefix) of the key "ab" but sorts
above it in reverse lexicographic order, so it is replaced first and shadows
the longer key: the persisted fixture is "a\x7b\x7b.B\x7d\x7d" rather than
the longest-first result "\x7b\x7b.AB\x7d\x7d". -/
theorem claim_C4_counterexample :
    goldieDefaults.updateWithTemplate false 0 ⟨"TestExample"⟩ "tpl"
      (.map (.cons "B" (.str "b") (.cons "AB" (.str "ab") .nil)))
      (some (strBytes "ab")) ⟨[]⟩ =
      .ok ⟨[(["testdata"], .dir 0),
            (["testdata", "tpl.golden"], .file (strBytes "a\x7b\x7b.B\x7d\x7d"))]⟩ ∧
    strBytes "a\x7b\x7b.B\x7d\x7d" ≠ strBytes "\x7b\x7b.AB\x7d\x7d" :=
  ⟨rfl, by decide⟩

theorem execTmpl_default_ok (data : List (String × String)) :
    ∀ chunks : List TmplChunk, ∃ s, execTmpl false data chunks = .ok s := by
  intro chunks
  induction chunks with
  | nil => exact ⟨"", rfl⟩
  | cons c rest ih =>
    rcases ih with ⟨s, hs⟩
    cases c with
    | lit ch => exact ⟨String.singleton ch ++ s, by rw [execTmpl, hs]; rfl⟩
    | ref f =>
      cases hm : mapGet data f with
      | some v => exact ⟨v ++ s, by rw [execTmpl, hm, hs]; rfl⟩
      | none => exact ⟨"<no value>" ++ s, by rw [execTmpl, hm, hs]; rfl⟩

theorem execTmpl_error_of_missing (data : List (String × String)) (f : String)
    (hmiss : mapGet data f = none) :
    ∀ chunks : List TmplChunk, TmplChunk.ref f ∈ chunks →
      ∃ m, execTmpl true data chunks = .error m := by
  intro chunks
  induction chunks with
  | nil => intro h; cases h
  | cons c rest ih =>
    intro h
    cases c with
    | lit ch =>
      have hmem : TmplChunk.ref f ∈ rest := by
        rcases List.mem_cons.mp h with h1 | h2
        · cases h1
        · exact h2
      rcases ih hmem with ⟨m, hm⟩
      exact ⟨m, by rw [execTmpl, hm]; rfl⟩
    | ref f2 =>
      cases hm2 : mapGet data f2 with
      | none => exact ⟨"map has no entry for key " ++ f2, by rw [execTmpl, hm2]; rfl⟩
      | some v =>
        have hmem : TmplChunk.ref f ∈ rest := by
          rcases List.mem_cons.mp h with h1 | h2
          · injection h1 with hf
            subst hf
            rw [hmiss] at hm2
            cases hm2
          · exact h2
        rcases ih hmem with ⟨m, hm⟩
        exact ⟨m, by rw [execTmpl, hm2, hm]; rfl⟩

/-- Claim C6: when the fixture template references a field absent from the
supplied data, `compareTemplate` under the default missing-key policy (the
ignore-template-errors toggle false) fails with a `MissingKey` error; with
the toggle true the expansion always succeeds, rendering the standard
default text for the unresolved reference, and the comparison never fails
with `MissingKey`. -/
theorem claim_C6_missing_key (g : Goldie) (t : TestingT) (fs : FileSystem)
    (name : String) (data : List (String × String)) (actualData : GoBytes)
    (tb : List Nat) (chunks : List TmplChunk) (f : String)
    (hread : readFileGo fs (g.goldenFileName t name) = .ok tb)
    (hparse : parseTmpl (bytesToChars tb).length (bytesToChars tb) = .ok chunks)
    (hmem : TmplChunk.ref f ∈ chunks) (hmiss : mapGet data f = none) :
    (g.ignoreTemplateErrors = false →
      ∃ m, g.compareTemplate t fs name data actualData = .error (.missingKey m)) ∧
    (g.ignoreTemplateErrors = true →
      (∃ r, execTmpl false data chunks = .ok r) ∧
      ∀ m, g.compareTemplate t fs name data actualData ≠ .error (.missingKey m)) := by
  constructor
  · intro hig
    rcases execTmpl_error_of_missing data f hmiss chunks hmem with ⟨m, hm⟩
    refine ⟨"Template error: " ++ m, ?_⟩
    simp only [Goldie.compareTemplate, hread, hparse, hig, Bool.not_false, hm,
      newErrMissingKey]
  · intro hig
    rcases execTmpl_default_ok data chunks with ⟨r, hr⟩
    refine ⟨⟨r, hr⟩, ?_⟩
    intro m hcontra
    simp only [Goldie.compareTemplate, hread, hparse, hig, Bool.not_true, hr] at hcontra
    by_cases heq : goBytesData actualData = strBytes r
    · rw [if_pos heq] at hcontra
      cases hcontra
    · rw [if_neg heq] at hcontra
      exact GoError.noConfusion (Except.error.inj hcontra)

/-- Witness for C6: the fixture "abc \x7b\x7b.Name\x7d\x7d" against empty
data yields `MissingKey` under the default policy and never yields
`MissingKey` with the toggle set. -/
theorem claim_C6_witness :
    (∃ m, goldieDefaults.compareTemplate ⟨"TestExample"⟩
      ⟨[(["testdata"], .dir 0),
        (["testdata", "sub.golden"], .file (strBytes "abc \x7b\x7b.Name\x7d\x7d"))]⟩
      "sub" [] (some (strBytes "abc x")) = .error (.missingKey m)) ∧
    (∀ m, ({ goldieDefaults with ignoreTemplateErrors := true } : Goldie).compareTemplate
      ⟨"TestExample"⟩
      ⟨[(["testdata"], .dir 0),
        (["testdata", "sub.golden"], .file (strBytes "abc \x7b\x7b.Name\x7d\x7d"))]⟩
      "sub" [] (some (strBytes "abc x")) ≠ .error (.missingKey m)) :=
  ⟨(claim_C6_missing_key goldieDefaults ⟨"TestExample"⟩
      ⟨[(["testdata"], .dir 0),
        (["testdata", "sub.golden"], .file (strBytes "abc \x7b\x7b.Name\x7d\x7d"))]⟩
      "sub" [] (some (strBytes "abc x")) (strBytes "abc \x7b\x7b.Name\x7d\x7d")
      [.lit 'a', .lit 'b', .lit 'c', .lit ' ', .ref "Name"] "Name"
      rfl rfl (by decide) rfl).1 rfl,
    ((claim_C6_missing_key ({ goldieDefaults with ignoreTemplateErrors := true } : Goldie)
      ⟨"TestExample"⟩
      ⟨[(["testdata"], .dir 0),
        (["testdata", "sub.golden"], .file (strBytes "abc \x7b\x7b.Name\x7d\x7d"))]⟩
      "sub" [] (some (strBytes "abc x")) (strBytes "abc \x7b\x7b.Name\x7d\x7d")
      [.lit 'a', .lit 'b', .lit 'c', .lit ' ', .ref "Name"] "Name"
      rfl rfl (by decide) rfl).2 rfl).2⟩
